import Mathlib

/-!
Verification development for the coop cooperative multithreaded task library.

The definitions below are a shallow embedding of the C++ sources:
  - include/coop/task.hpp            (task handle, promise, handoff protocol)
  - include/coop/detail/promise.hpp  (joinable final awaiter variant)
  - include/coop/detail/work_queue.hpp and src/work_queue.cpp (priority clamp)
  - src/scheduler.cpp                (affinity canonicalization, queue choice,
                                      event thread wake and signal branches)

Machine integers are modelled as Nat with explicit wrapping where the width
matters; arrays are modelled as lists; coroutine handles are modelled as
natural-number identifiers (0 stands for a null handle).
-/

namespace Coop

/-! ## Work queue priority clamp (src/work_queue.cpp, work_queue_t::enqueue)

The C++ source defines COOP_PRIORITY_COUNT as 2 (detail/work_queue.hpp) and
clamps with std::clamp<uint32_t>(priority, 0, COOP_PRIORITY_COUNT); the
resulting value indexes the two-element sub-queue array queues_. -/

def COOP_PRIORITY_COUNT : Nat := 2

/-- Embeds priority = std::clamp<uint32_t>(priority, 0, COOP_PRIORITY_COUNT);
for unsigned values std::clamp(v, lo, hi) is min (max v lo) hi. -/
def enqueueClampedPriority (priority : Nat) : Nat :=
  min (max priority 0) COOP_PRIORITY_COUNT

/-! ## Scheduler affinity mask (src/scheduler.cpp)

The constructor computes cpu_mask_ = (1 << (cpu_count_ + 1)) - 1, stored in a
uint32_t field. schedule() canonicalizes a zero affinity argument with
cpu_affinity = ~cpu_affinity & cpu_mask_, which for a zero argument equals
cpu_mask_ itself. -/

/-- Embeds cpu_mask_ = (1 << (cpu_count_ + 1)) - 1 as stored in uint32_t. -/
def cpu_mask (cpu_count : Nat) : Nat :=
  (2 ^ (cpu_count + 1) - 1) % 2 ^ 32

/-- Embeds the canonicalization at the top of scheduler_t::schedule:
if (cpu_affinity == 0) cpu_affinity = ~cpu_affinity & cpu_mask_. -/
def canonicalAffinity (cpu_count affinity : Nat) : Nat :=
  if affinity = 0 then cpu_mask cpu_count else affinity

/-! ## Fallback queue selection (src/scheduler.cpp, lines 180-193)

The code computes an index modulo std::popcount(cpu_affinity), then runs
index iterations of cpu_affinity &= ~(1 << (std::countr_zero(cpu_affinity) + 1))
and finally returns std::countr_zero(cpu_affinity). countr_zero and popcount
are modelled with 64 fuel steps, matching the uint64_t operand width
(std::countr_zero of 0 on uint64_t is 64). -/

def ctzAux : Nat → Nat → Nat
  | 0, _ => 0
  | fuel + 1, m => if m % 2 = 1 then 0 else ctzAux fuel (m / 2) + 1

/-- Embeds std::countr_zero on uint64_t (returns 64 on the zero word). -/
def countr_zero (m : Nat) : Nat := ctzAux 64 m

def popcountAux : Nat → Nat → Nat
  | 0, _ => 0
  | fuel + 1, m => m % 2 + popcountAux fuel (m / 2)

/-- Embeds std::popcount on uint64_t. -/
def popcount (m : Nat) : Nat := popcountAux 64 m

/-- Embeds m &= ~(1 << k): clear bit k of m. -/
def clearBit (m k : Nat) : Nat :=
  if m.testBit k then m - 2 ^ k else m

/-- Embeds the loop
for (i = 0; i != index; ++i) cpu_affinity &= ~(1 << (countr_zero(cpu_affinity) + 1)). -/
def dropBitsAux : Nat → Nat → Nat
  | 0, m => m
  | i + 1, m => dropBitsAux i (clearBit m (countr_zero m + 1))

/-- Embeds the fallback selection of scheduler_t::schedule given the already
truncated counter product n: index = n % popcount(mask), then the bit-dropping
loop, then queue = countr_zero of the remaining mask. -/
def fallbackQueue (mask n : Nat) : Nat :=
  countr_zero (dropBitsAux (n % popcount mask) mask)

/-- Modelled from the spec (claim comparison only): the n-th set bit of the
mask, counting set bits from the least significant end. -/
def nthSetBitSpec (mask n : Nat) : Nat :=
  (((List.range 64).filter fun i => mask.testBit i).getD n 0)

/-! ## Full enqueue-path choice of scheduler_t::schedule (lines 157-194)

The first loop scans CPU indices 0 .. cpu_count_ - 1 in increasing order and
enqueues on the first allowed CPU whose queue has approximate size zero,
passing the caller priority through unchanged; only if the scan fails is the
fallback selector consulted. -/

def scanFirstAux (p : Nat → Bool) : Nat → Nat → Option Nat
  | _, 0 => none
  | i, fuel + 1 => if p i then some i else scanFirstAux p (i + 1) fuel

structure ScheduleChoice where
  queue : Nat
  priority : Nat
  usedFallback : Bool
  deriving Repr, DecidableEq

/-- Embeds scheduler_t::schedule(coroutine, cpu_affinity, priority, ...):
canonicalize the mask, scan for the first allowed empty queue, otherwise use
the low-discrepancy fallback. qsize i models queues_[i].size_approx() at the
time the loop inspects it; n models the truncated counter product driving the
fallback. -/
def schedule (cpu_count affinity priority n : Nat) (qsize : Nat → Nat) :
    ScheduleChoice :=
  let mask := canonicalAffinity cpu_count affinity
  match scanFirstAux (fun i => mask.testBit i && (qsize i == 0)) 0 cpu_count with
  | some i => ⟨i, priority, false⟩
  | none => ⟨fallbackQueue mask n, priority, true⟩

/-! ## Event thread wake branch: growing the wait set (src/scheduler.cpp 74-113)

When the wake handle (index 0) fires and size + event_count_ > event_capacity_
the code runs:
    event_capacity_     = size + event_count_ * 2;
    event_ref_t* events = new event_ref_t[event_capacity_];
    std::memcpy(events_, events, sizeof(event_t) * event_count_);
    delete[] events_;
    events_ = events;
and then moves the continuation records one by one into a fresh array. Arrays
are modelled as lists of Nat handle values; a freshly allocated event_ref_t
array is default-initialized with null (0) handles. -/

/-- Embeds event_capacity_ = size + event_count_ * 2 with size the pending
registration count and event_count_ the live count. -/
def growCapacity (pending count : Nat) : Nat := pending + count * 2

/-- Embeds memcpy(dst, src, n) on list-modelled arrays of equal element size:
the first n slots of dst are replaced by the first n slots of src. -/
def memcpyList (dst src : List Nat) (n : Nat) : List Nat :=
  src.take n ++ dst.drop n

/-- Embeds the events_ reallocation of the wake branch: allocate the new
default-initialized array, memcpy FROM the new array INTO the old one (the
argument order of the source), free the old array and publish the new one. -/
def growEventsStep (oldEvents : List Nat) (count capacity' : Nat) : List Nat :=
  let events := List.replicate capacity' 0
  let _freedOldArray := memcpyList oldEvents events count
  events

/-- Embeds the continuation-record reallocation of the wake branch, which
moves slots 0 .. event_count_ - 2 of the old array into the new array. -/
def growContinuationsStep (oldConts : List Nat) (count capacity' : Nat) :
    List Nat :=
  oldConts.take (count - 1) ++ List.replicate (capacity' - 1 - (count - 1)) 0

/-! ## Event thread signal branch (src/scheduler.cpp 115-134)

When the handle at index > 0 fires the code schedules the record at
event_continuations_[index - 1] and then compacts:
    std::swap(events_[index], events_[event_count_ - 1]);
    std::swap(event_continuations_[index - 1], event_continuations_[event_count_ - 1]);
    --event_count_; -/

/-- Embeds std::swap of two slots of a list-modelled array. -/
def listSwap (l : List Nat) (i j : Nat) : List Nat :=
  (l.set i (l.getD j 0)).set j (l.getD i 0)

structure SignalResult where
  scheduledCont : Nat
  events : List Nat
  conts : List Nat
  count : Nat
  deriving Repr, DecidableEq

/-- Embeds the whole signal branch for a fired index > 0: the scheduled
record, the two swaps and the decrement of event_count_. -/
def signalStep (events conts : List Nat) (count index : Nat) : SignalResult :=
  { scheduledCont := conts.getD (index - 1) 0
  , events := listSwap events index (count - 1)
  , conts := listSwap conts (index - 1) (count - 1)
  , count := count - 1 }

/-! ## Continuation handoff protocol (include/coop/task.hpp)

The awaiter side is detail::await_suspend (lines 133-160): write the
continuation field, then flag.exchange(true, release); a true prior value
means the completer already passed the final suspension, so the awaiter
resumes the continuation (its own resume point) itself by returning it.
The completer side is final_awaiter_t::await_suspend (lines 83-126):
flag.exchange(true, acquire), and on a true prior value read the continuation
field and resume it if non-null.

The race is modelled as all interleavings of the two step sequences
[aWrite, aExch] (awaiter program order) and [cExch, cRead] (completer program
order) under sequentially consistent shared memory; the release/acquire pair
on the single atomic word is what justifies treating the continuation write
as visible to the later steps of the serialization. -/

structure HandoffState where
  continuation : Option Nat
  flag : Bool
  aPrior : Option Bool
  cPrior : Option Bool
  resumed : List Nat
  deriving Repr, DecidableEq

def handoffInit : HandoffState :=
  { continuation := none, flag := false, aPrior := none, cPrior := none
  , resumed := [] }

inductive HandoffLabel where
  | aWrite
  | aExch
  | cExch
  | cRead
  deriving Repr, DecidableEq

/-- One atomic step of the protocol; next is the handle of the awaiter resume
point being installed (detail::await_suspend argument). -/
def handoffStep (next : Nat) : HandoffLabel → HandoffState → HandoffState
  | .aWrite, s => { s with continuation := some next }
  | .aExch, s =>
      { s with flag := true, aPrior := some s.flag
             , resumed := if s.flag then s.resumed ++ [next] else s.resumed }
  | .cExch, s => { s with flag := true, cPrior := some s.flag }
  | .cRead, s =>
      if s.cPrior = some true then
        match s.continuation with
        | some c => { s with resumed := s.resumed ++ [c] }
        | none => s
      else s

def handoffRun (next : Nat) : List HandoffLabel → HandoffState → HandoffState
  | [], s => s
  | l :: ls, s => handoffRun next ls (handoffStep next l s)

/-- All interleavings of the awaiter program [aWrite, aExch] with the
completer program [cExch, cRead]. -/
def handoffInterleavings : List (List HandoffLabel) :=
  [ [.aWrite, .aExch, .cExch, .cRead]
  , [.aWrite, .cExch, .aExch, .cRead]
  , [.aWrite, .cExch, .cRead, .aExch]
  , [.cExch, .aWrite, .aExch, .cRead]
  , [.cExch, .aWrite, .cRead, .aExch]
  , [.cExch, .cRead, .aWrite, .aExch] ]

/-! ## Joinable task protocol (include/coop/detail/promise.hpp)

final_awaiter_t<P, true>::await_suspend (lines 73-90) releases the join
semaphore and destroys the coroutine frame; task_t::join acquires the join
semaphore; detail::await_suspend on a joinable promise (lines 98-102) returns
the noop coroutine without installing or resuming anything. -/

structure JoinState where
  dataSlot : Option Nat
  bodyDone : Bool
  sem : Nat
  frameAlive : Bool
  contResumed : Nat
  joinReturned : Bool
  deriving Repr, DecidableEq

def joinInit : JoinState :=
  { dataSlot := none, bodyDone := false, sem := 0, frameAlive := true
  , contResumed := 0, joinReturned := false }

inductive JoinLabel where
  | complete (v : Nat)
  | joinAcquire
  | awaitAttempt
  deriving Repr, DecidableEq

/-- Guard of each step: the body can complete once while the frame is alive;
join_sem.acquire() returns only when the semaphore count is positive;
awaiting a joinable task is always possible to attempt (and is a no-op). -/
def joinEnabled : JoinLabel → JoinState → Bool
  | .complete _, s => s.frameAlive && !s.bodyDone
  | .joinAcquire, s => decide (0 < s.sem)
  | .awaitAttempt, _ => true

/-- Effect of each step. complete embeds return_value (store the value) then
final_awaiter_t<P, true>::await_suspend (join_sem.release(); coroutine
destroy). joinAcquire embeds join_sem.acquire() returning. awaitAttempt
embeds detail::await_suspend on a joinable promise: return noop, no change. -/
def joinApply : JoinLabel → JoinState → JoinState
  | .complete v, s =>
      { s with dataSlot := some v, bodyDone := true, sem := s.sem + 1
             , frameAlive := false }
  | .joinAcquire, s => { s with sem := s.sem - 1, joinReturned := true }
  | .awaitAttempt, s => s

inductive JoinReachable : JoinState → Prop
  | init : JoinReachable joinInit
  | step (l : JoinLabel) (s : JoinState) :
      JoinReachable s → joinEnabled l s = true → JoinReachable (joinApply l s)

/-! ## Task completion with exceptional exit (include/coop/task.hpp)

promise_base_t::unhandled_exception (lines 65-68) is a no-op. For a value
task the Joinable specialization releases the join semaphore inside
return_value (lines 212-232), which only runs on a normal co_return; the
final awaiter for a joinable promise just returns the noop coroutine. For an
awaitable promise the final awaiter performs the acquire exchange and the
handoff regardless of how the body exited. -/

inductive BodyExit where
  | normal (v : Nat)
  | exceptional
  deriving Repr, DecidableEq

structure JoinablePromise where
  data : Nat
  joinSem : Nat
  deriving Repr, DecidableEq

/-- Promise state at coroutine entry: data is default-constructed (0) and the
join semaphore starts at 0. -/
def joinablePromiseInit : JoinablePromise := { data := 0, joinSem := 0 }

/-- Embeds task_t promise_type return_value for Joinable = true:
data = value; join_sem.release(). -/
def joinableReturnValue (s : JoinablePromise) (v : Nat) : JoinablePromise :=
  { data := v, joinSem := s.joinSem + 1 }

/-- Embeds promise_base_t::unhandled_exception: no effect on the promise. -/
def unhandled_exception (s : JoinablePromise) : JoinablePromise := s

/-- Running a joinable task body to its final suspension in task.hpp: a normal
exit passes through return_value, an exceptional exit passes through
unhandled_exception; the joinable final awaiter changes nothing. -/
def runJoinableBody : BodyExit → JoinablePromise
  | .normal v => joinableReturnValue joinablePromiseInit v
  | .exceptional => unhandled_exception joinablePromiseInit

structure AwaitablePromise where
  data : Nat
  continuation : Option Nat
  flag : Bool
  deriving Repr, DecidableEq

/-- Embeds final_awaiter_t::await_suspend for an awaitable promise: acquire
exchange on flag; on a true prior value resume the stored continuation if it
is non-null (returned handle), else return the noop coroutine (none). -/
def finalAwaitSuspend (s : AwaitablePromise) : AwaitablePromise × Option Nat :=
  let s' := { s with flag := true }
  if s.flag then
    match s.continuation with
    | some c => (s', some c)
    | none => (s', none)
  else (s', none)

/-- Embeds task_t promise_type return_value for Joinable = false. -/
def awaitableReturnValue (s : AwaitablePromise) (v : Nat) : AwaitablePromise :=
  { s with data := v }

/-- Running an awaitable task body from state s to the end of its final
suspension: return_value on a normal exit, unhandled_exception (no-op) on an
exceptional exit, then the final awaiter in both cases. -/
def runAwaitableBody (e : BodyExit) (s : AwaitablePromise) :
    AwaitablePromise × Option Nat :=
  match e with
  | .normal v => finalAwaitSuspend (awaitableReturnValue s v)
  | .exceptional => finalAwaitSuspend s

/-! ## Task truthiness and readiness (include/coop/task.hpp)

Both task_t<T, ...> (lines 281-302) and the void specialization (lines
404-413) define operator bool and await_ready as
!coroutine_ || coroutine_.done(); the move constructor nulls the source
handle. -/

structure CoroutineFrame where
  done : Bool
  deriving Repr, DecidableEq

/-- Embeds task_t operator bool: !coroutine_ || coroutine_.done(). -/
def taskOperatorBool (coroutine : Option CoroutineFrame) : Bool :=
  match coroutine with
  | none => true
  | some c => c.done

/-- Embeds task_t::await_ready: !coroutine_ || coroutine_.done(). -/
def taskAwaitReady (coroutine : Option CoroutineFrame) : Bool :=
  match coroutine with
  | none => true
  | some c => c.done

/-- Embeds the void specialization operator bool. -/
def taskVoidOperatorBool (coroutine : Option CoroutineFrame) : Bool :=
  match coroutine with
  | none => true
  | some c => c.done

/-- Embeds the void specialization await_ready. -/
def taskVoidAwaitReady (coroutine : Option CoroutineFrame) : Bool :=
  match coroutine with
  | none => true
  | some c => c.done

/-- Embeds the move constructor: the new task takes the handle and
other.coroutine_ becomes nullptr. -/
def taskMoveCtor (src : Option CoroutineFrame) :
    Option CoroutineFrame × Option CoroutineFrame :=
  (src, none)

/-! ## Helper lemmas -/

theorem scanFirstAux_some (p : Nat → Bool) (fuel i k : Nat)
    (h : scanFirstAux p i fuel = some k) :
    p k = true ∧ i ≤ k ∧ k < i + fuel ∧ ∀ j, i ≤ j → j < k → p j = false := by
  induction fuel generalizing i with
  | zero => simp [scanFirstAux] at h
  | succ n ih =>
    rw [scanFirstAux] at h
    by_cases hp : p i = true
    · rw [if_pos hp] at h
      obtain rfl : i = k := by simpa using h
      exact ⟨hp, Nat.le_refl _, by omega, fun j h1 h2 => absurd h2 (by omega)⟩
    · rw [if_neg hp] at h
      obtain ⟨hpk, hik, hk, hall⟩ := ih (i + 1) h
      refine ⟨hpk, by omega, by omega, fun j h1 h2 => ?_⟩
      by_cases hj : j = i
      · subst hj
        exact Bool.eq_false_iff.mpr hp
      · exact hall j (by omega) h2

theorem scanFirstAux_isSome (p : Nat → Bool) (fuel i k : Nat)
    (hik : i ≤ k) (hk : k < i + fuel) (hpk : p k = true) :
    (scanFirstAux p i fuel).isSome = true := by
  induction fuel generalizing i with
  | zero => omega
  | succ n ih =>
    rw [scanFirstAux]
    by_cases hp : p i = true
    · simp [hp]
    · rw [if_neg hp]
      have hne : i ≠ k := fun he => hp (he ▸ hpk)
      exact ih (i + 1) (by omega) (by omega)

/-- Inductive invariant of the joinable protocol: the continuation is never
resumed, a returned join implies a completed body, the join semaphore counts
exactly the unconsumed completion release, and a completed body has had its
frame destroyed and its value stored. -/
def joinInv (s : JoinState) : Prop :=
  s.contResumed = 0 ∧
  (s.joinReturned = true → s.bodyDone = true) ∧
  (s.sem = if s.bodyDone = true ∧ s.joinReturned = false then 1 else 0) ∧
  (s.bodyDone = true → s.frameAlive = false)

theorem joinInv_init : joinInv joinInit := by
  simp [joinInv, joinInit]

theorem joinInv_step (l : JoinLabel) (s : JoinState)
    (hinv : joinInv s) (hen : joinEnabled l s = true) :
    joinInv (joinApply l s) := by
  obtain ⟨h1, h2, h3, h4⟩ := hinv
  cases l with
  | complete v =>
    simp [joinEnabled, Bool.and_eq_true] at hen
    obtain ⟨_, hnd⟩ := hen
    constructor
    · simpa [joinApply] using h1
    constructor
    · intro hj
      simp [joinApply]
    constructor
    · simp only [joinApply]
      have hjr : s.joinReturned = false := by
        cases hjr : s.joinReturned with
        | false => rfl
        | true => exact absurd (h2 hjr) (by simp [hnd])
      simp [hjr, hnd] at h3
      simp [hjr, h3]
    · intro _
      simp [joinApply]
  | joinAcquire =>
    simp [joinEnabled] at hen
    have hbd : s.bodyDone = true ∧ s.joinReturned = false := by
      by_contra hcon
      rw [if_neg hcon] at h3
      omega
    constructor
    · simpa [joinApply] using h1
    constructor
    · intro _
      exact hbd.1
    constructor
    · simp only [joinApply]
      rw [if_neg (by simp)]
      rw [h3, if_pos hbd]
    · intro hd
      simpa [joinApply] using h4 hd
  | awaitAttempt =>
    exact ⟨h1, h2, h3, h4⟩

theorem joinInv_reachable (s : JoinState) (h : JoinReachable s) : joinInv s := by
  induction h with
  | init => exact joinInv_init
  | step l s hs hen ih => exact joinInv_step l s ih hen

/-! ## Claim theorems -/

/-- C1: for every awaitable task and every interleaving of the awaiter
(continuation write then release exchange on flag) with the completer
(acquire exchange on flag at final suspension), the installed continuation is
resumed exactly once, and the side that observes a prior flag value of true
(exactly one side does) sees the awaiter write to the continuation field. -/
theorem c1_handoff_exactly_once (next : Nat) (l : List HandoffLabel)
    (h : l ∈ handoffInterleavings) :
    (handoffRun next l handoffInit).resumed = [next] ∧
    (handoffRun next l handoffInit).continuation = some next ∧
    ((handoffRun next l handoffInit).aPrior = some true ∧
       (handoffRun next l handoffInit).cPrior = some false ∨
     (handoffRun next l handoffInit).aPrior = some false ∧
       (handoffRun next l handoffInit).cPrior = some true) := by
  fin_cases h <;>
    simp [handoffRun, handoffStep, handoffInit]

theorem c1_handoff_exactly_once_witness :
    [HandoffLabel.aWrite, HandoffLabel.cExch, HandoffLabel.cRead,
      HandoffLabel.aExch] ∈ handoffInterleavings ∧
    ((handoffRun 7 [HandoffLabel.aWrite, HandoffLabel.cExch,
        HandoffLabel.cRead, HandoffLabel.aExch] handoffInit).resumed = [7] ∧
     (handoffRun 7 [HandoffLabel.aWrite, HandoffLabel.cExch,
        HandoffLabel.cRead, HandoffLabel.aExch] handoffInit).continuation
        = some 7 ∧
     ((handoffRun 7 [HandoffLabel.aWrite, HandoffLabel.cExch,
        HandoffLabel.cRead, HandoffLabel.aExch] handoffInit).aPrior
        = some true ∧
      (handoffRun 7 [HandoffLabel.aWrite, HandoffLabel.cExch,
        HandoffLabel.cRead, HandoffLabel.aExch] handoffInit).cPrior
        = some false ∨
      (handoffRun 7 [HandoffLabel.aWrite, HandoffLabel.cExch,
        HandoffLabel.cRead, HandoffLabel.aExch] handoffInit).aPrior
        = some false ∧
      (handoffRun 7 [HandoffLabel.aWrite, HandoffLabel.cExch,
        HandoffLabel.cRead, HandoffLabel.aExch] handoffInit).cPrior
        = some true)) :=
  ⟨by decide, c1_handoff_exactly_once 7 _ (by decide)⟩

/-- C2: in every reachable state of the joinable protocol, a returned join
implies a completed body (join never returns early), a completed body has
released the join channel (join is enabled unless already returned) and
destroyed the coroutine frame, join cannot return before completion, and no
continuation is ever resumed. -/
theorem c2_join_returns_iff_complete (s : JoinState) (h : JoinReachable s) :
    (s.joinReturned = true → s.bodyDone = true) ∧
    (s.bodyDone = true → s.frameAlive = false) ∧
    (s.bodyDone = true →
      s.joinReturned = true ∨ joinEnabled JoinLabel.joinAcquire s = true) ∧
    (s.bodyDone = false → joinEnabled JoinLabel.joinAcquire s = false) ∧
    s.contResumed = 0 := by
  obtain ⟨h1, h2, h3, h4⟩ := joinInv_reachable s h
  refine ⟨h2, h4, ?_, ?_, h1⟩
  · intro hd
    cases hj : s.joinReturned with
    | true => exact Or.inl rfl
    | false =>
      right
      simp [hd, hj] at h3
      simp [joinEnabled, h3]
  · intro hd
    simp [hd] at h3
    simp [joinEnabled, h3]

theorem c2_join_returns_iff_complete_witness :
    JoinReachable (joinApply (JoinLabel.complete 5) joinInit) ∧
    (((joinApply (JoinLabel.complete 5) joinInit).joinReturned = true →
        (joinApply (JoinLabel.complete 5) joinInit).bodyDone = true) ∧
     ((joinApply (JoinLabel.complete 5) joinInit).bodyDone = true →
        (joinApply (JoinLabel.complete 5) joinInit).frameAlive = false) ∧
     ((joinApply (JoinLabel.complete 5) joinInit).bodyDone = true →
        (joinApply (JoinLabel.complete 5) joinInit).joinReturned = true ∨
        joinEnabled JoinLabel.joinAcquire
          (joinApply (JoinLabel.complete 5) joinInit) = true) ∧
     ((joinApply (JoinLabel.complete 5) joinInit).bodyDone = false →
        joinEnabled JoinLabel.joinAcquire
          (joinApply (JoinLabel.complete 5) joinInit) = false) ∧
     (joinApply (JoinLabel.complete 5) joinInit).contResumed = 0) :=
  have hr : JoinReachable (joinApply (JoinLabel.complete 5) joinInit) :=
    JoinReachable.step (JoinLabel.complete 5) joinInit JoinReachable.init
      (by decide)
  ⟨hr, c2_join_returns_iff_complete _ hr⟩

/-- C3: the claim says the enqueue priority is clamped into the set 0, 1;
the code clamps with upper bound COOP_PRIORITY_COUNT = 2, so priority 2 is
left at 2 and indexes past the two-element sub-queue array. This theorem
evaluates the code at the failing input priority = 2. -/
theorem c3_priority_clamp_out_of_range :
    enqueueClampedPriority 2 = 2 ∧
    ¬(enqueueClampedPriority 2 = 0 ∨ enqueueClampedPriority 2 = 1) ∧
    COOP_PRIORITY_COUNT - 1 < enqueueClampedPriority 2 := by decide

/-- C4: the claim says a zero affinity mask is canonicalized so that bit i is
set exactly when i < cpu_count; the constructor computes
(1 << (cpu_count + 1)) - 1, which also sets bit cpu_count. Evaluated at
cpu_count = 2: the mask is 7 (bits 0, 1, 2), not 3. -/
theorem c4_canonical_mask_extra_bit :
    canonicalAffinity 2 0 = 7 ∧
    (canonicalAffinity 2 0).testBit 2 = true ∧
    canonicalAffinity 2 0 ≠ 2 ^ 2 - 1 := by decide

/-- C5: the claim says the fallback selection picks the n-th set bit of the
mask; the bit-dropping loop clears bit countr_zero + 1 instead of the lowest
set bit, so with mask 3 (CPUs 0 and 1 allowed, both busy) and n = 1 the code
picks queue 0 while the 1st set bit (counting from 0) is bit 1. -/
theorem c5_fallback_not_nth_set_bit :
    popcount 3 = 2 ∧
    fallbackQueue 3 1 = 0 ∧
    nthSetBitSpec 3 1 = 1 ∧
    fallbackQueue 3 1 ≠ nthSetBitSpec 3 1 := by decide

/-- C6: the claim says the grow path preserves every previously registered
event (copying old into new) and that the new capacity is
current_used + pending_count * 2. The code computes
pending_count + current_used * 2 and performs memcpy(events_, events, ...)
with the fresh default-initialized array as the source, so the published
array holds null handles where the registered events were. Evaluated at a
full wait set of 32 entries (wake handle 0 plus events 101..131) with one
pending registration: slot 1 held event 101 and holds 0 after the grow. -/
theorem c6_grow_discards_events :
    growCapacity 1 32 = 65 ∧
    growCapacity 1 32 ≠ 32 + 1 * 2 ∧
    ((0 : Nat) :: (List.range 31).map (fun k => k + 101)).getD 1 0 = 101 ∧
    (growEventsStep ((0 : Nat) :: (List.range 31).map (fun k => k + 101)) 32
        (growCapacity 1 32)).getD 1 0 = 0 ∧
    (growContinuationsStep ((List.range 31).map (fun k => k + 201)) 32
        (growCapacity 1 32)).getD 0 0 = 201 := by decide

/-- C7: the claim says the compaction keeps every live event at position
j > 0 paired with its own record at position j - 1 and only swaps within the
live region. With live entries [wake 0, event 101, event 102] (count 3,
records 201 and 202, slot 2 holding the stale value 555) and index 1 fired:
record 201 is scheduled and the wake slot stays, but the record array is
swapped at indices (0, 2) instead of (0, 1), so surviving event 102 at
position 1 is paired with 555 instead of its record 202. -/
theorem c7_signal_compaction_mispairs :
    (signalStep [0, 101, 102, 7] [201, 202, 555] 3 1).scheduledCont = 201 ∧
    (signalStep [0, 101, 102, 7] [201, 202, 555] 3 1).events
      = [0, 102, 101, 7] ∧
    (signalStep [0, 101, 102, 7] [201, 202, 555] 3 1).count = 2 ∧
    (signalStep [0, 101, 102, 7] [201, 202, 555] 3 1).events.getD 0 0 = 0 ∧
    (signalStep [0, 101, 102, 7] [201, 202, 555] 3 1).events.getD 1 0
      = 102 ∧
    (signalStep [0, 101, 102, 7] [201, 202, 555] 3 1).conts.getD 0 0
      = 555 ∧
    (signalStep [0, 101, 102, 7] [201, 202, 555] 3 1).conts.getD 0 0
      ≠ 202 := by decide

/-- C8: whenever some allowed CPU has an empty queue, schedule picks the
first such CPU in increasing index order, passes the caller priority through
to the work queue unchanged, and does not consult the fallback selector. -/
theorem c8_first_empty_allowed_queue
    (cpu_count affinity priority n : Nat) (qsize : Nat → Nat) (i : Nat)
    (hi : i < cpu_count)
    (hbit : (canonicalAffinity cpu_count affinity).testBit i = true)
    (hempty : qsize i = 0) :
    (schedule cpu_count affinity priority n qsize).usedFallback = false ∧
    (schedule cpu_count affinity priority n qsize).priority = priority ∧
    (schedule cpu_count affinity priority n qsize).queue < cpu_count ∧
    (canonicalAffinity cpu_count affinity).testBit
      (schedule cpu_count affinity priority n qsize).queue = true ∧
    qsize (schedule cpu_count affinity priority n qsize).queue = 0 ∧
    ((List.range (schedule cpu_count affinity priority n qsize).queue).all
      fun j => !((canonicalAffinity cpu_count affinity).testBit j &&
                   (qsize j == 0))) = true := by
  have hsome := scanFirstAux_isSome
    (fun j => (canonicalAffinity cpu_count affinity).testBit j
      && (qsize j == 0)) cpu_count 0 i (Nat.zero_le _) (by omega)
    (by simp [hbit, hempty])
  obtain ⟨k, hk⟩ := Option.isSome_iff_exists.mp hsome
  obtain ⟨hpk, _, hkfuel, hall⟩ := scanFirstAux_some _ _ _ _ hk
  simp only [Bool.and_eq_true, beq_iff_eq] at hpk
  have hsch : schedule cpu_count affinity priority n qsize
      = ⟨k, priority, false⟩ := by
    simp only [schedule, hk]
  rw [hsch]
  refine ⟨rfl, rfl, show k < cpu_count by omega, hpk.1, hpk.2, ?_⟩
  simp only [List.all_eq_true, List.mem_range]
  intro j hj
  have := hall j (Nat.zero_le _) hj
  simp [this]

theorem c8_first_empty_allowed_queue_witness :
    (0 : Nat) < 2 ∧
    (canonicalAffinity 2 0).testBit 0 = true ∧
    (fun _ : Nat => 0) 0 = 0 ∧
    ((schedule 2 0 1 5 (fun _ => 0)).usedFallback = false ∧
     (schedule 2 0 1 5 (fun _ => 0)).priority = 1 ∧
     (schedule 2 0 1 5 (fun _ => 0)).queue < 2 ∧
     (canonicalAffinity 2 0).testBit (schedule 2 0 1 5 (fun _ => 0)).queue
       = true ∧
     (fun _ : Nat => 0) (schedule 2 0 1 5 (fun _ => 0)).queue = 0 ∧
     ((List.range (schedule 2 0 1 5 (fun _ => 0)).queue).all
       fun j => !((canonicalAffinity 2 0).testBit j &&
                    ((fun _ : Nat => 0) j == 0))) = true) :=
  ⟨by decide, by decide, rfl,
    c8_first_empty_allowed_queue 2 0 1 5 (fun _ => 0) 0 (by decide)
      (by decide) rfl⟩

/-- C9 counterexample: the claim says that after an exceptional exit of a
joinable task body the join channel is still released; in task.hpp the
release happens inside return_value, which an exceptional exit skips, so the
join semaphore stays at 0 and a pending join cannot return. -/
theorem c9_joinable_exception_counterexample :
    ¬ 0 < (runJoinableBody BodyExit.exceptional).joinSem := by decide

/-- C9 amended: after an exceptional exit the result slot keeps its default
value and for an awaitable task the final-suspension flag exchange and
continuation handoff still occur exactly as on a normal return; for a
joinable task the join channel is NOT released, so a pending join does not
return. -/
theorem c9_exceptional_exit_amended (f : Bool) (c : Option Nat) :
    (runJoinableBody BodyExit.exceptional).data = joinablePromiseInit.data ∧
    (runJoinableBody BodyExit.exceptional).joinSem = 0 ∧
    (runAwaitableBody BodyExit.exceptional
      { data := 0, continuation := c, flag := f }).1.data = 0 ∧
    (runAwaitableBody BodyExit.exceptional
      { data := 0, continuation := c, flag := f }).1.flag = true ∧
    (runAwaitableBody BodyExit.exceptional
        { data := 0, continuation := c, flag := f }).2
      = (runAwaitableBody (BodyExit.normal 0)
        { data := 0, continuation := c, flag := f }).2 := by
  cases f <;> cases c <;>
    simp [runJoinableBody, runAwaitableBody, finalAwaitSuspend,
      awaitableReturnValue, joinablePromiseInit, unhandled_exception]

/-- C10: operator bool and await_ready compute the same predicate on every
task object, for the value-typed task and the void specialization alike: true
exactly when the handle is null or the coroutine is done; a moved-from source
handle is null, so awaiting it reports ready and never suspends the
awaiter. -/
theorem c10_truthiness_await_ready_agree (t : Option CoroutineFrame) :
    taskOperatorBool t = taskAwaitReady t ∧
    taskVoidOperatorBool t = taskVoidAwaitReady t ∧
    taskOperatorBool t = taskVoidOperatorBool t ∧
    (taskAwaitReady t = true ↔ t = none ∨ ∃ c, t = some c ∧ c.done = true) ∧
    taskAwaitReady (taskMoveCtor t).2 = true ∧
    taskAwaitReady none = true := by
  cases t <;>
    simp [taskOperatorBool, taskAwaitReady, taskVoidOperatorBool,
      taskVoidAwaitReady, taskMoveCtor]

end Coop
